import Mathlib

/-!
Verification of the ethereum-etl-airflow export DAG
(src/dags/export_dag.py) against its natural-language specification.

The Python module is shallowly embedded: pure helpers become Lean
functions on Nat/String; the object store is a map from path to blob;
each step command becomes a list of actions run by an explicit
executor that mirrors the with-TemporaryDirectory structure of the
source. External collaborators (the ethereumetl CLI callbacks and the
cloud storage hook) are modelled by oracles for sub-operation success
and output content, and by the store map.
-/

namespace EthereumEtl

/-- A calendar date, the LogicalDate of one pipeline run. -/
structure Date where
  year : Nat
  month : Nat
  day : Nat
deriving DecidableEq, Repr

/-- Dates representable by Python datetime and unambiguous under
strftime: four-digit year, valid month and day ranges. -/
def ValidDate (d : Date) : Prop :=
  1000 ≤ d.year ∧ d.year ≤ 9999 ∧ 1 ≤ d.month ∧ d.month ≤ 12 ∧
    1 ≤ d.day ∧ d.day ≤ 31

instance (d : Date) : Decidable (ValidDate d) := by
  unfold ValidDate; infer_instance

/-- Modelled from Python strftime: a number rendered as exactly four
decimal digits, zero padded (the %Y field for years up to 9999). -/
def fmt4 (n : Nat) : String :=
  String.mk [Nat.digitChar (n / 1000 % 10), Nat.digitChar (n / 100 % 10),
    Nat.digitChar (n / 10 % 10), Nat.digitChar (n % 10)]

/-- Modelled from Python strftime: a number rendered as exactly two
decimal digits, zero padded (the %m and %d fields). -/
def fmt2 (n : Nat) : String :=
  String.mk [Nat.digitChar (n / 10 % 10), Nat.digitChar (n % 10)]

/-- Modelled from Python strftime: date.strftime of the pattern
%Y-%m-%d as used by export_path in the source. -/
def strftimeYmd (d : Date) : String :=
  fmt4 d.year ++ "-" ++ fmt2 d.month ++ "-" ++ fmt2 d.day

/-- export_path from src/dags/export_dag.py: the partition path prefix
for one (artifact kind, date) pair. -/
def export_path (directory : String) (date : Date) : String :=
  "export/" ++ directory ++ "/block_date=" ++ strftimeYmd date ++ "/"

/-- The artifact kinds the DAG publishes or fetches. -/
def artifactKinds : List String :=
  ["blocks_meta", "blocks", "transactions", "receipts", "logs",
    "contracts", "tokens", "token_transfers", "traces"]

/-! ## Task graph construction -/

/-- The six per-step boolean toggles, read from the environment in the
source (EXPORT_BLOCKS_AND_TRANSACTIONS and so on). -/
structure Toggles where
  blocksAndTransactions : Bool
  receiptsAndLogs : Bool
  contracts : Bool
  tokens : Bool
  tokenTransfers : Bool
  traces : Bool
deriving DecidableEq, Fintype, Repr

/-- add_export_task from the source: when the toggle is set it creates
the operator and wires an edge from every non-None dependency to it;
when the toggle is unset it returns None and adds nothing. The
returned pair is the created operator (by task id) and the edges added
to the DAG. -/
def add_export_task (toggle : Bool) (task_id : String)
    (dependencies : List (Option String)) :
    Option String × List (String × String) :=
  if toggle then
    (some task_id, (dependencies.filterMap id).map (fun dep => (dep, task_id)))
  else
    (none, [])

/-- The module-level operator wiring of the source: the six
add_export_task calls in order, collecting the task nodes and the
dependency edges they register on the DAG. -/
def buildGraph (t : Toggles) : List String × List (String × String) :=
  let b := add_export_task t.blocksAndTransactions
    "export_blocks_and_transactions" []
  let r := add_export_task t.receiptsAndLogs
    "export_receipts_and_logs" [b.1]
  let c := add_export_task t.contracts "export_contracts" [r.1]
  let tk := add_export_task t.tokens "export_tokens" [c.1]
  let tt := add_export_task t.tokenTransfers "extract_token_transfers" [r.1]
  let tr := add_export_task t.traces "export_traces" []
  ([b.1, r.1, c.1, tk.1, tt.1, tr.1].filterMap id,
    b.2 ++ r.2 ++ c.2 ++ tk.2 ++ tt.2 ++ tr.2)

/-- The four canonical producer-to-consumer edges of the DAG. -/
def canonicalEdges : List (String × String) :=
  [("export_blocks_and_transactions", "export_receipts_and_logs"),
   ("export_receipts_and_logs", "export_contracts"),
   ("export_contracts", "export_tokens"),
   ("export_receipts_and_logs", "extract_token_transfers")]

/-! ## Step command execution -/

/-- One primitive of a step command: fetch an upstream artifact into
the workspace (copy_from_export_path), invoke one unit-of-work
callback that writes the named workspace files, or publish a workspace
file under an artifact kind (copy_to_export_path). -/
inductive Action where
  | fetch (kind file : String)
  | runOp (op : String) (outputs : List String)
  | publish (file kind : String)
deriving DecidableEq, Repr

/-- Observable events of one step invocation. -/
inductive Event where
  | acquire
  | fetched (kind file : String)
  | fetchFailed (kind file : String)
  | ran (op : String)
  | opFailed (op : String)
  | published (kind file : String)
  | publishFailed (file kind : String)
  | release
deriving DecidableEq, Repr

/-- Oracles for the external collaborators: whether each unit-of-work
callback succeeds, and the content it writes to each output file. -/
structure Env where
  opOk : String → Bool
  opOut : String → String → String

/-- Pointwise update of a path-to-blob map (the object store hook
upload overwrites, and a workspace file write overwrites). -/
def update (f : String → Option String) (k : String) (v : String) :
    String → Option String :=
  fun x => if x = k then some v else f x

/-- Write the declared outputs of one unit-of-work call into the
workspace. -/
def writeOutputs (fs : String → Option String) (env : Env) (op : String)
    (outs : List String) : String → Option String :=
  outs.foldl (fun acc file => update acc file (env.opOut op file)) fs

/-- The mutable state of one step invocation: the scoped temporary
workspace files and the object store. -/
structure RunState where
  fs : String → Option String
  store : String → Option String

/-- The result of running (part of) a step command. -/
structure Outcome where
  state : RunState
  trace : List Event
  ok : Bool

/-- Sequential execution of a command body, mirroring the straight-line
Python: a raising fetch (download of a missing object), a raising
unit-of-work call, or a raising publish (missing local file) aborts the
rest of the body immediately. -/
def runActions (env : Env) (date : Date) :
    List Action → RunState → Outcome
  | [], st => ⟨st, [], true⟩
  | Action.fetch kind file :: rest, st =>
    match st.store (export_path kind date ++ file) with
    | none => ⟨st, [Event.fetchFailed kind file], false⟩
    | some v =>
      let r := runActions env date rest { st with fs := update st.fs file v }
      ⟨r.state, Event.fetched kind file :: r.trace, r.ok⟩
  | Action.runOp op outs :: rest, st =>
    if env.opOk op then
      let r := runActions env date rest
        { st with fs := writeOutputs st.fs env op outs }
      ⟨r.state, Event.ran op :: r.trace, r.ok⟩
    else
      ⟨st, [Event.opFailed op], false⟩
  | Action.publish file kind :: rest, st =>
    match st.fs file with
    | none => ⟨st, [Event.publishFailed file kind], false⟩
    | some v =>
      let r := runActions env date rest
        { st with store := update st.store (export_path kind date ++ file) v }
      ⟨r.state, Event.published kind file :: r.trace, r.ok⟩

/-- TemporaryDirectory exit: the workspace directory and everything in
it is removed. Modelled from Python tempfile.TemporaryDirectory, whose
context manager removes the directory on every exit path. -/
def releaseWorkspace (st : RunState) : RunState :=
  { st with fs := fun _ => none }

/-- Run one step command the way each command function in the source
does: enter a fresh TemporaryDirectory, run the body, and leave the
directory removed on every exit path, normal or raising. -/
def runStep (cmd : List Action) (env : Env) (date : Date)
    (store : String → Option String) : Outcome :=
  let r := runActions env date cmd ⟨fun _ => none, store⟩
  ⟨releaseWorkspace r.state,
    Event.acquire :: r.trace ++ [Event.release], r.ok⟩

/-- export_blocks_and_transactions_command from the source. -/
def export_blocks_and_transactions_command : List Action :=
  [Action.runOp "get_block_range_for_date" ["blocks_meta.txt"],
   Action.runOp "export_blocks_and_transactions"
     ["blocks.csv", "transactions.csv"],
   Action.publish "blocks_meta.txt" "blocks_meta",
   Action.publish "blocks.csv" "blocks",
   Action.publish "transactions.csv" "transactions"]

/-- export_receipts_and_logs_command from the source. -/
def export_receipts_and_logs_command : List Action :=
  [Action.fetch "transactions" "transactions.csv",
   Action.runOp "extract_csv_column_hash" ["transaction_hashes.txt"],
   Action.runOp "export_receipts_and_logs" ["receipts.csv", "logs.json"],
   Action.publish "receipts.csv" "receipts",
   Action.publish "logs.json" "logs"]

/-- export_contracts_command from the source. -/
def export_contracts_command : List Action :=
  [Action.fetch "receipts" "receipts.csv",
   Action.runOp "extract_csv_column_contract_address"
     ["contract_addresses.txt"],
   Action.runOp "export_contracts" ["contracts.json"],
   Action.publish "contracts.json" "contracts"]

/-- export_tokens_command from the source. -/
def export_tokens_command : List Action :=
  [Action.fetch "contracts" "contracts.json",
   Action.runOp "filter_items" ["token_contracts.json"],
   Action.runOp "extract_field" ["token_addresses.txt"],
   Action.runOp "export_tokens" ["tokens.csv"],
   Action.publish "tokens.csv" "tokens"]

/-- extract_token_transfers_command from the source. -/
def extract_token_transfers_command : List Action :=
  [Action.fetch "logs" "logs.json",
   Action.runOp "extract_token_transfers" ["token_transfers.csv"],
   Action.publish "token_transfers.csv" "token_transfers"]

/-- export_traces_command from the source. -/
def export_traces_command : List Action :=
  [Action.runOp "get_block_range_for_date" ["blocks_meta.txt"],
   Action.runOp "export_traces" ["traces.csv"],
   Action.publish "traces.csv" "traces"]

/-- All six step commands of the DAG. -/
def allCommands : List (List Action) :=
  [export_blocks_and_transactions_command,
   export_receipts_and_logs_command,
   export_contracts_command,
   export_tokens_command,
   extract_token_transfers_command,
   export_traces_command]

/-- The four consumer commands together with the kind and file of
their upstream fetch. -/
def consumerFetches : List (List Action × String × String) :=
  [(export_receipts_and_logs_command, "transactions", "transactions.csv"),
   (export_contracts_command, "receipts", "receipts.csv"),
   (export_tokens_command, "contracts", "contracts.json"),
   (extract_token_transfers_command, "logs", "logs.json")]

/-- Is this action a publish? -/
def isPublishAction : Action → Bool
  | Action.publish _ _ => true
  | _ => false

/-- A command is publish-terminal when, once its first publish occurs,
every later action is also a publish. All six command bodies have this
shape in the source. -/
def publishesLastIn (l : List Action) : Bool :=
  (l.dropWhile (fun a => !(isPublishAction a))).all isPublishAction

/-- A failed fetch or a failed unit-of-work call. -/
def isFailureEvent : Event → Bool
  | Event.fetchFailed _ _ => true
  | Event.opFailed _ => true
  | _ => false

/-- A successful upload to the object store. -/
def isPublishedEvent : Event → Bool
  | Event.published _ _ => true
  | _ => false

/-- An attempted publish, successful or not. -/
def isPubAttemptEvent : Event → Bool
  | Event.published _ _ => true
  | Event.publishFailed _ _ => true
  | _ => false

/-- Events admissible after the first publish attempt. -/
def isPubPhaseEvent : Event → Bool
  | Event.published _ _ => true
  | Event.publishFailed _ _ => true
  | Event.release => true
  | _ => false

/-- Once a publish attempt appears in the trace, nothing but publish
attempts and the workspace release follows. -/
def pubsLast : List Event → Bool
  | [] => true
  | e :: r =>
    if isPubAttemptEvent e then r.all isPubPhaseEvent else pubsLast r

/-! ## Environment configuration -/

/-- Modelled from Python str.lower: lowercase every character (the
values compared against here are ASCII). -/
def pyLower (s : String) : String :=
  String.mk (s.data.map Char.toLower)

/-- get_boolean_env_variable from the source: unset or empty yields the
default, otherwise the lowercased raw value must be exactly true or
yes. -/
def get_boolean_env_variable (env : String → Option String)
    (env_variable_name : String) (dflt : Bool) : Bool :=
  match env env_variable_name with
  | none => dflt
  | some raw_env =>
    if raw_env.length = 0 then dflt
    else (pyLower raw_env == "true" || pyLower raw_env == "yes")

/-- An integer setting: Python int() over the raw value when present,
the given default when absent; a malformed present value raises. -/
def parseIntSetting (env : String → Option String) (name : String)
    (dflt : Int) : Except String Int :=
  match env name with
  | none => Except.ok dflt
  | some s =>
    match s.toInt? with
    | some n => Except.ok n
    | none => Except.error ("invalid literal for int: " ++ s)

/-- The module-level configuration of the source. -/
structure Config where
  notificationEmails : List String
  outputBucket : String
  web3ProviderUri : String
  web3ProviderUriArchival : String
  exportMaxWorkers : Int
  exportBatchSize : Int
  daoforkTracesOption : Bool
  genesisTracesOption : Bool
  toggles : Toggles
deriving DecidableEq, Repr

/-- The module-level environment reads of the source, in order: the
optional notification list, the required OUTPUT_BUCKET (raising when
absent), endpoints and numeric settings with defaults, and the boolean
flags, all before any operator is created. -/
def loadConfig (env : String → Option String) : Except String Config := do
  let emails :=
    match env "NOTIFICATION_EMAILS" with
    | none => []
    | some s =>
      if s.length > 0 then (s.splitOn ",").map (fun e => e.trim) else []
  let bucket ←
    match env "OUTPUT_BUCKET" with
    | none =>
      Except.error "You must set OUTPUT_BUCKET environment variable"
    | some b => Except.ok b
  let web3 := (env "WEB3_PROVIDER_URI").getD "https://mainnet.infura.io/"
  let web3Archival := (env "WEB3_PROVIDER_URI_ARCHIVAL").getD web3
  let workers ← parseIntSetting env "EXPORT_MAX_WORKERS" 5
  let batch ← parseIntSetting env "EXPORT_BATCH_SIZE" 10
  let daofork := get_boolean_env_variable env "EXPORT_DAOFORK_TRACES_OPTION" true
  let genesis := get_boolean_env_variable env "EXPORT_GENESIS_TRACES_OPTION" true
  let t : Toggles :=
    { blocksAndTransactions :=
        get_boolean_env_variable env "EXPORT_BLOCKS_AND_TRANSACTIONS" true
      receiptsAndLogs :=
        get_boolean_env_variable env "EXPORT_RECEIPTS_AND_LOGS" true
      contracts := get_boolean_env_variable env "EXPORT_CONTRACTS" true
      tokens := get_boolean_env_variable env "EXPORT_TOKENS" true
      tokenTransfers :=
        get_boolean_env_variable env "EXTRACT_TOKEN_TRANSFERS" true
      traces := get_boolean_env_variable env "EXPORT_TRACES" true }
  Except.ok
    { notificationEmails := emails
      outputBucket := bucket
      web3ProviderUri := web3
      web3ProviderUriArchival := web3Archival
      exportMaxWorkers := workers
      exportBatchSize := batch
      daoforkTracesOption := daofork
      genesisTracesOption := genesis
      toggles := t }

/-- Startup: configuration is loaded first; only when it succeeds is
the task graph built. A missing OUTPUT_BUCKET therefore aborts before
any graph exists. -/
def buildDagFromEnv (env : String → Option String) :
    Except String (List String × List (String × String)) :=
  (loadConfig env).map (fun cfg => buildGraph cfg.toggles)

/-- An environment defining only OUTPUT_BUCKET. -/
def minimalEnv : String → Option String :=
  fun n => if n = "OUTPUT_BUCKET" then some "the-bucket" else none

/-- A sample toggle assignment: only export_receipts_and_logs enabled. -/
def onlyReceiptsToggles : Toggles := ⟨false, true, false, false, false, false⟩

/-- A sample date. -/
def sampleDate : Date := ⟨2021, 3, 1⟩

/-- A collaborator oracle where every unit-of-work call succeeds. -/
def okEnv : Env := ⟨fun _ => true, fun _ _ => "data"⟩

/-- A collaborator oracle where every unit-of-work call raises. -/
def failEnv : Env := ⟨fun _ => false, fun _ _ => "data"⟩

/-- An object store holding only a stale transactions artifact for the
sample date. -/
def staleStore : String → Option String :=
  fun p =>
    if p = export_path "transactions" sampleDate ++ "transactions.csv" then
      some "stale"
    else none

/-! ## Helper lemmas -/

theorem strftimeYmd_data (d : Date) :
    (strftimeYmd d).data =
      [Nat.digitChar (d.year / 1000 % 10), Nat.digitChar (d.year / 100 % 10),
       Nat.digitChar (d.year / 10 % 10), Nat.digitChar (d.year % 10), '-',
       Nat.digitChar (d.month / 10 % 10), Nat.digitChar (d.month % 10), '-',
       Nat.digitChar (d.day / 10 % 10), Nat.digitChar (d.day % 10)] := by
  simp [strftimeYmd, fmt4, fmt2, String.data_append]

theorem strftimeYmd_length (d : Date) : (strftimeYmd d).length = 10 := by
  simp [String.length, strftimeYmd_data]

theorem digitChar_inj_bounded :
    ∀ a < 10, ∀ b < 10, Nat.digitChar a = Nat.digitChar b → a = b := by decide

theorem digitChar_injOn (a b : Nat) (ha : a < 10) (hb : b < 10)
    (h : Nat.digitChar a = Nat.digitChar b) : a = b :=
  digitChar_inj_bounded a ha b hb h

theorem strftimeYmd_inj (d1 d2 : Date) (h1 : ValidDate d1) (h2 : ValidDate d2)
    (h : strftimeYmd d1 = strftimeYmd d2) : d1 = d2 := by
  have hd : (strftimeYmd d1).data = (strftimeYmd d2).data := by rw [h]
  rw [strftimeYmd_data, strftimeYmd_data] at hd
  simp only [List.cons.injEq] at hd
  obtain ⟨hy3, hy2, hy1, hy0, _, hm1, hm0, _, hd1, hd0, _⟩ := hd
  obtain ⟨hy1a, hy1b, hm1a, hm1b, hd1a, hd1b⟩ := h1
  obtain ⟨hy2a, hy2b, hm2a, hm2b, hd2a, hd2b⟩ := h2
  have ey3 := digitChar_injOn _ _ (Nat.mod_lt _ (by omega)) (Nat.mod_lt _ (by omega)) hy3
  have ey2 := digitChar_injOn _ _ (Nat.mod_lt _ (by omega)) (Nat.mod_lt _ (by omega)) hy2
  have ey1 := digitChar_injOn _ _ (Nat.mod_lt _ (by omega)) (Nat.mod_lt _ (by omega)) hy1
  have ey0 := digitChar_injOn _ _ (Nat.mod_lt _ (by omega)) (Nat.mod_lt _ (by omega)) hy0
  have em1 := digitChar_injOn _ _ (Nat.mod_lt _ (by omega)) (Nat.mod_lt _ (by omega)) hm1
  have em0 := digitChar_injOn _ _ (Nat.mod_lt _ (by omega)) (Nat.mod_lt _ (by omega)) hm0
  have ed1 := digitChar_injOn _ _ (Nat.mod_lt _ (by omega)) (Nat.mod_lt _ (by omega)) hd1
  have ed0 := digitChar_injOn _ _ (Nat.mod_lt _ (by omega)) (Nat.mod_lt _ (by omega)) hd0
  obtain ⟨y1, m1, dd1⟩ := d1
  obtain ⟨y2, m2, dd2⟩ := d2
  simp only [Date.mk.injEq]
  simp only at hy1a hy1b hm1a hm1b hd1a hd1b hy2a hy2b hm2a hm2b hd2a hd2b
  simp only at ey3 ey2 ey1 ey0 em1 em0 ed1 ed0
  refine ⟨by omega, by omega, by omega⟩

theorem export_path_data (k : String) (d : Date) :
    (export_path k d).data =
      "export/".data ++ k.data ++ "/block_date=".data ++
        (strftimeYmd d).data ++ "/".data := by
  simp [export_path, String.data_append]

theorem str_eq_of_data (s t : String) (h : s.data = t.data) : s = t := by
  cases s; cases t; exact congrArg String.mk h

theorem strftimeYmd_data_length (d : Date) :
    (strftimeYmd d).data.length = 10 :=
  strftimeYmd_length d

theorem export_path_inj (k1 k2 : String) (d1 d2 : Date)
    (h1 : ValidDate d1) (h2 : ValidDate d2)
    (h : export_path k1 d1 = export_path k2 d2) : k1 = k2 ∧ d1 = d2 := by
  have hd : (export_path k1 d1).data = (export_path k2 d2).data := by rw [h]
  rw [export_path_data, export_path_data] at hd
  rw [List.append_assoc, List.append_assoc, List.append_assoc,
      List.append_assoc, List.append_assoc, List.append_assoc] at hd
  have step1 := List.append_inj hd rfl
  obtain ⟨-, hd2⟩ := step1
  have htail : ("/block_date=".data ++ ((strftimeYmd d1).data ++ "/".data)).length =
      ("/block_date=".data ++ ((strftimeYmd d2).data ++ "/".data)).length := by
    rw [List.length_append, List.length_append, List.length_append,
      List.length_append, strftimeYmd_data_length, strftimeYmd_data_length]
  have step2 := List.append_inj' hd2 htail
  obtain ⟨hk, hrest⟩ := step2
  have step3 := List.append_inj hrest rfl
  obtain ⟨-, hrest2⟩ := step3
  have step4 := List.append_inj' hrest2 rfl
  obtain ⟨hdate, -⟩ := step4
  exact ⟨str_eq_of_data _ _ hk,
    strftimeYmd_inj d1 d2 h1 h2 (str_eq_of_data _ _ hdate)⟩

/-! ## Claim theorems -/

/-- C1: export_path returns exactly the partition prefix string built
from the kind and the YYYY-MM-DD date; it is deterministic, injective
over enumerated kinds and valid dates, and for the blocks kind on
2021-03-01 yields the documented prefix, placing blocks.csv at the
documented object path. -/
theorem C1_export_path_contract :
    (∀ k d, export_path k d =
      "export/" ++ k ++ "/block_date=" ++ strftimeYmd d ++ "/") ∧
    (∀ k1 d1 k2 d2, k1 ∈ artifactKinds → k2 ∈ artifactKinds →
      ValidDate d1 → ValidDate d2 →
      (export_path k1 d1 = export_path k2 d2 ↔ (k1 = k2 ∧ d1 = d2))) ∧
    export_path "blocks" ⟨2021, 3, 1⟩ = "export/blocks/block_date=2021-03-01/" ∧
    export_path "blocks" ⟨2021, 3, 1⟩ ++ "blocks.csv" =
      "export/blocks/block_date=2021-03-01/blocks.csv" := by
  refine ⟨fun k d => rfl, fun k1 d1 k2 d2 _ _ h1 h2 => ?_, by decide, by decide⟩
  constructor
  · exact export_path_inj k1 k2 d1 d2 h1 h2
  · rintro ⟨rfl, rfl⟩; rfl

theorem C1_export_path_contract_witness :
    ("blocks" ∈ artifactKinds) ∧ ("transactions" ∈ artifactKinds) ∧
    ValidDate ⟨2021, 3, 1⟩ ∧
    ¬ export_path "blocks" ⟨2021, 3, 1⟩ = export_path "transactions" ⟨2021, 3, 1⟩ := by
  refine ⟨by decide, by decide, by decide, ?_⟩
  have h := (C1_export_path_contract.2.1 "blocks" ⟨2021, 3, 1⟩
    "transactions" ⟨2021, 3, 1⟩ (by decide) (by decide) (by decide) (by decide))
  intro he
  exact absurd (h.mp he).1 (by decide)

/-- C2: with all toggles false the wiring yields no nodes and no
edges; with all toggles true it yields exactly the six declared task
nodes and the four canonical edges, and export_traces touches no
edge. -/
theorem C2_toggle_completeness :
    buildGraph ⟨false, false, false, false, false, false⟩ = ([], []) ∧
    (buildGraph ⟨true, true, true, true, true, true⟩).1 =
      ["export_blocks_and_transactions", "export_receipts_and_logs",
       "export_contracts", "export_tokens", "extract_token_transfers",
       "export_traces"] ∧
    (buildGraph ⟨true, true, true, true, true, true⟩).2 = canonicalEdges ∧
    ((buildGraph ⟨true, true, true, true, true, true⟩).2.all
      (fun e => e.1 != "export_traces" && e.2 != "export_traces")) = true := by
  decide

/-- C3: for every toggle assignment, a disabled step contributes no
node, each canonical edge appears exactly when both of its endpoints
are enabled, every edge of the graph is canonical, and construction is
total (it produces a graph for each of the 64 assignments). -/
theorem C3_edge_elision :
    ∀ t : Toggles,
      (("export_blocks_and_transactions" ∈ (buildGraph t).1) ↔
        t.blocksAndTransactions = true) ∧
      (("export_receipts_and_logs" ∈ (buildGraph t).1) ↔
        t.receiptsAndLogs = true) ∧
      (("export_contracts" ∈ (buildGraph t).1) ↔ t.contracts = true) ∧
      (("export_tokens" ∈ (buildGraph t).1) ↔ t.tokens = true) ∧
      (("extract_token_transfers" ∈ (buildGraph t).1) ↔
        t.tokenTransfers = true) ∧
      (("export_traces" ∈ (buildGraph t).1) ↔ t.traces = true) ∧
      ((("export_blocks_and_transactions", "export_receipts_and_logs") ∈
          (buildGraph t).2) ↔
        (t.blocksAndTransactions = true ∧ t.receiptsAndLogs = true)) ∧
      ((("export_receipts_and_logs", "export_contracts") ∈ (buildGraph t).2) ↔
        (t.receiptsAndLogs = true ∧ t.contracts = true)) ∧
      ((("export_contracts", "export_tokens") ∈ (buildGraph t).2) ↔
        (t.contracts = true ∧ t.tokens = true)) ∧
      ((("export_receipts_and_logs", "extract_token_transfers") ∈
          (buildGraph t).2) ↔
        (t.receiptsAndLogs = true ∧ t.tokenTransfers = true)) ∧
      (∀ e ∈ (buildGraph t).2, e ∈ canonicalEdges) := by
  intro t
  obtain ⟨b, r, c, k, f, x⟩ := t
  cases b <;> cases r <;> cases c <;> cases k <;> cases f <;> cases x <;>
    decide

theorem pubPhase_of_pubAttempt (e : Event) (h : isPubAttemptEvent e = true) :
    isPubPhaseEvent e = true := by
  cases e <;> simp_all [isPubAttemptEvent, isPubPhaseEvent]

theorem not_failure_of_pubAttempt (e : Event) (h : isPubAttemptEvent e = true) :
    isFailureEvent e = false := by
  cases e <;> simp_all [isPubAttemptEvent, isFailureEvent]

theorem pubAttempt_trace (env : Env) (date : Date) :
    ∀ (l : List Action) (st : RunState), l.all isPublishAction = true →
      (runActions env date l st).trace.all isPubAttemptEvent = true := by
  intro l
  induction l with
  | nil => intro st _; simp [runActions]
  | cons a rest ih =>
    intro st h
    simp only [List.all_cons, Bool.and_eq_true] at h
    obtain ⟨ha, hrest⟩ := h
    cases a with
    | fetch kind file => simp [isPublishAction] at ha
    | runOp op outs => simp [isPublishAction] at ha
    | publish file kind =>
      cases hfs : st.fs file with
      | none => simp [runActions, hfs, isPubAttemptEvent]
      | some v => simp [runActions, hfs, isPubAttemptEvent, ih _ hrest]

theorem no_failure_of_all_pubAttempt (tr : List Event)
    (h : tr.all isPubAttemptEvent = true) : tr.any isFailureEvent = false := by
  induction tr with
  | nil => simp
  | cons e r ih =>
    simp only [List.all_cons, Bool.and_eq_true] at h
    simp [List.any_cons, not_failure_of_pubAttempt e h.1, ih h.2]

theorem publishesLastIn_cons_nonpub (a : Action) (rest : List Action)
    (ha : isPublishAction a = false)
    (h : publishesLastIn (a :: rest) = true) : publishesLastIn rest = true := by
  simpa [publishesLastIn, List.dropWhile_cons, ha] using h

theorem publishesLastIn_cons_pub (file kind : String) (rest : List Action)
    (h : publishesLastIn (Action.publish file kind :: rest) = true) :
    rest.all isPublishAction = true := by
  simp [publishesLastIn, List.dropWhile_cons, isPublishAction] at h
  rw [List.all_eq_true]
  intro x hx
  have := h x hx
  cases x <;> simp_all [isPublishAction]

theorem all_pubPhase_of_all_pubAttempt (tr : List Event)
    (h : tr.all isPubAttemptEvent = true) : tr.all isPubPhaseEvent = true := by
  rw [List.all_eq_true] at h ⊢
  intro e he
  exact pubPhase_of_pubAttempt e (h e he)

theorem runActions_failure_no_publish (env : Env) (date : Date) :
    ∀ (l : List Action) (st : RunState), publishesLastIn l = true →
      (runActions env date l st).trace.any isFailureEvent = true →
      (runActions env date l st).trace.any isPublishedEvent = false ∧
      (runActions env date l st).state.store = st.store := by
  intro l
  induction l with
  | nil => intro st _ h; simp [runActions] at h
  | cons a rest ih =>
    intro st hwf hfail
    cases a with
    | fetch kind file =>
      have hwf2 := publishesLastIn_cons_nonpub _ rest (by rfl) hwf
      cases hst : st.store (export_path kind date ++ file) with
      | none =>
        refine ⟨?_, ?_⟩ <;> simp [runActions, hst, isPublishedEvent]
      | some v =>
        simp only [runActions, hst] at hfail ⊢
        simp only [List.any_cons, isFailureEvent, Bool.false_or] at hfail
        have := ih { st with fs := update st.fs file v } hwf2 hfail
        simp only [List.any_cons, isPublishedEvent, Bool.false_or]
        exact this
    | runOp op outs =>
      have hwf2 := publishesLastIn_cons_nonpub _ rest (by rfl) hwf
      by_cases hop : env.opOk op
      · simp only [runActions, hop, if_true] at hfail ⊢
        simp only [List.any_cons, isFailureEvent, Bool.false_or] at hfail
        have := ih { st with fs := writeOutputs st.fs env op outs } hwf2 hfail
        simp only [List.any_cons, isPublishedEvent, Bool.false_or]
        exact this
      · refine ⟨?_, ?_⟩ <;> simp [runActions, hop, isPublishedEvent]
    | publish file kind =>
      have hrest := publishesLastIn_cons_pub file kind rest hwf
      cases hfs : st.fs file with
      | none => simp [runActions, hfs, isFailureEvent] at hfail
      | some v =>
        exfalso
        simp only [runActions, hfs] at hfail
        simp only [List.any_cons, isFailureEvent, Bool.false_or] at hfail
        have hall := pubAttempt_trace env date rest
          { st with store := update st.store (export_path kind date ++ file) v }
          hrest
        rw [no_failure_of_all_pubAttempt _ hall] at hfail
        exact Bool.false_ne_true hfail

theorem runActions_pubsLast (env : Env) (date : Date) :
    ∀ (l : List Action) (st : RunState), publishesLastIn l = true →
      pubsLast ((runActions env date l st).trace ++ [Event.release]) = true := by
  intro l
  induction l with
  | nil => intro st _; simp [runActions, pubsLast, isPubAttemptEvent]
  | cons a rest ih =>
    intro st hwf
    cases a with
    | fetch kind file =>
      have hwf2 := publishesLastIn_cons_nonpub _ rest (by rfl) hwf
      cases hst : st.store (export_path kind date ++ file) with
      | none => simp [runActions, hst, pubsLast, isPubAttemptEvent]
      | some v =>
        simp only [runActions, hst, List.cons_append]
        simp only [pubsLast, isPubAttemptEvent, if_neg, Bool.false_eq_true,
          not_false_eq_true]
        exact ih _ hwf2
    | runOp op outs =>
      have hwf2 := publishesLastIn_cons_nonpub _ rest (by rfl) hwf
      by_cases hop : env.opOk op
      · simp only [runActions, hop, if_true, List.cons_append]
        simp only [pubsLast, isPubAttemptEvent, if_neg, Bool.false_eq_true,
          not_false_eq_true]
        exact ih _ hwf2
      · simp [runActions, hop, pubsLast, isPubAttemptEvent]
    | publish file kind =>
      have hrest := publishesLastIn_cons_pub file kind rest hwf
      cases hfs : st.fs file with
      | none =>
        simp [runActions, hfs, pubsLast, isPubAttemptEvent, isPubPhaseEvent]
      | some v =>
        simp only [runActions, hfs, List.cons_append]
        simp only [pubsLast, isPubAttemptEvent, if_pos]
        have hall := pubAttempt_trace env date rest
          { st with store := update st.store (export_path kind date ++ file) v }
          hrest
        rw [List.all_append]
        simp [all_pubPhase_of_all_pubAttempt _ hall, isPubPhaseEvent]

theorem commands_publishesLast :
    ∀ cmd ∈ allCommands, publishesLastIn cmd = true := by decide

/-- C5: for every step command, if an upstream fetch or a unit-of-work
call fails, nothing is published and the object store is untouched;
moreover, in every trace all publish calls come after all fetches and
sub-operations. -/
theorem C5_no_partial_publish :
    ∀ cmd ∈ allCommands, ∀ (env : Env) (date : Date)
      (store : String → Option String),
      ((runStep cmd env date store).trace.any isFailureEvent = true →
        (runStep cmd env date store).trace.any isPublishedEvent = false ∧
        (runStep cmd env date store).state.store = store) ∧
      pubsLast (runStep cmd env date store).trace = true := by
  intro cmd hcmd env date store
  have hwf := commands_publishesLast cmd hcmd
  constructor
  · intro hfail
    simp only [runStep, releaseWorkspace, List.any_cons, List.any_append,
      List.any_nil, isFailureEvent, Bool.false_or, Bool.or_false] at hfail
    have := runActions_failure_no_publish env date cmd ⟨fun _ => none, store⟩
      hwf hfail
    constructor
    · simp only [runStep, releaseWorkspace, List.any_cons, List.any_append,
        List.any_nil, isPublishedEvent, Bool.false_or, Bool.or_false]
      exact this.1
    · simpa [runStep, releaseWorkspace] using this.2
  · simp only [runStep, pubsLast, isPubAttemptEvent, if_neg,
      Bool.false_eq_true, not_false_eq_true]
    exact runActions_pubsLast env date cmd ⟨fun _ => none, store⟩ hwf

theorem C5_no_partial_publish_witness :
    (runStep export_blocks_and_transactions_command failEnv sampleDate
      (fun _ => none)).trace.any isPublishedEvent = false :=
  ((C5_no_partial_publish export_blocks_and_transactions_command
    (by decide) failEnv sampleDate (fun _ => none)).1 (by decide)).1

/-- C6: every step command, on every exit path, leaves the scoped
temporary workspace empty: the run starts by acquiring it and ends by
releasing it, and the released state holds no files. -/
theorem C6_workspace_cleanup :
    ∀ cmd ∈ allCommands, ∀ (env : Env) (date : Date)
      (store : String → Option String),
      (∀ f, (runStep cmd env date store).state.fs f = none) ∧
      (runStep cmd env date store).trace.head? = some Event.acquire ∧
      (runStep cmd env date store).trace.getLast? = some Event.release := by
  intro cmd hcmd env date store
  refine ⟨fun f => rfl, rfl, ?_⟩
  show ((Event.acquire ::
    (runActions env date cmd ⟨fun _ => none, store⟩).trace) ++
      [Event.release]).getLast? = some Event.release
  exact List.getLast?_concat _

theorem C6_workspace_cleanup_witness :
    (runStep export_traces_command failEnv sampleDate
      (fun _ => none)).state.fs "traces.csv" = none :=
  (C6_workspace_cleanup export_traces_command (by decide) failEnv sampleDate
    (fun _ => none)).1 "traces.csv"

/-- C7: for every consumer command, when the upstream artifact is
absent from the object store at its partition path, the fetch raises
immediately: the run fails, no sub-operation runs, nothing is
published, and the store is unchanged. -/
theorem C7_fetch_not_found_hard_failure :
    ∀ spec ∈ consumerFetches, ∀ (env : Env) (date : Date)
      (store : String → Option String),
      store (export_path spec.2.1 date ++ spec.2.2) = none →
      (runStep spec.1 env date store).ok = false ∧
      (runStep spec.1 env date store).trace =
        [Event.acquire, Event.fetchFailed spec.2.1 spec.2.2,
          Event.release] ∧
      (runStep spec.1 env date store).state.store = store := by
  intro spec hspec env date store hmiss
  simp only [consumerFetches, List.mem_cons, List.not_mem_nil,
    or_false] at hspec
  rcases hspec with rfl | rfl | rfl | rfl <;>
    simp_all [runStep, runActions, releaseWorkspace,
      export_receipts_and_logs_command, export_contracts_command,
      export_tokens_command, extract_token_transfers_command]

theorem C7_fetch_not_found_hard_failure_witness :
    (runStep export_receipts_and_logs_command okEnv sampleDate
      (fun _ => none)).ok = false :=
  (C7_fetch_not_found_hard_failure
    (export_receipts_and_logs_command, "transactions", "transactions.csv")
    (by decide) okEnv sampleDate (fun _ => none) rfl).1

theorem update_self (f : String → Option String) (k : String) (v : String) :
    update f k v k = some v := by
  simp [update]

theorem update_ne (f : String → Option String) (k v x : String) (h : x ≠ k) :
    update f k v x = f x := by
  simp [update, h]

theorem export_path_length (k : String) (d : Date) :
    (export_path k d).length = 30 + k.length := by
  have h7 : ("export/" : String).length = 7 := rfl
  have h12 : ("/block_date=" : String).length = 12 := rfl
  have h1 : ("/" : String).length = 1 := rfl
  rw [export_path, String.length_append, String.length_append,
    String.length_append, String.length_append, strftimeYmd_length,
    h7, h12, h1]
  omega

theorem export_path_append_ne (k1 f1 k2 f2 : String) (d : Date)
    (h : k1.length + f1.length ≠ k2.length + f2.length) :
    export_path k1 d ++ f1 ≠ export_path k2 d ++ f2 := by
  intro he
  apply h
  have hl := congrArg String.length he
  rw [String.length_append, String.length_append, export_path_length,
    export_path_length] at hl
  omega

theorem runActions_store_untouched (env : Env) (date : Date) :
    ∀ (l : List Action) (st : RunState) (p : String),
      (∀ f k, Action.publish f k ∈ l → p ≠ export_path k date ++ f) →
      (runActions env date l st).state.store p = st.store p := by
  intro l
  induction l with
  | nil => intro st p _; rfl
  | cons a rest ih =>
    intro st p hdisj
    have hdrest : ∀ f k, Action.publish f k ∈ rest →
        p ≠ export_path k date ++ f :=
      fun f k hm => hdisj f k (List.mem_cons_of_mem _ hm)
    cases a with
    | fetch kind file =>
      cases hst : st.store (export_path kind date ++ file) with
      | none => simp [runActions, hst]
      | some v => simp [runActions, hst, ih _ p hdrest]
    | runOp op outs =>
      by_cases hop : env.opOk op
      · simp [runActions, hop, ih _ p hdrest]
      · simp [runActions, hop]
    | publish file kind =>
      cases hfs : st.fs file with
      | none => simp [runActions, hfs]
      | some v =>
        have hp : p ≠ export_path kind date ++ file :=
          hdisj file kind (List.mem_cons_self _ _)
        simp only [runActions, hfs]
        rw [ih _ p hdrest]
        exact update_ne _ _ _ _ hp

theorem runActions_no_fetch_agree (env : Env) (date : Date) :
    ∀ (l : List Action) (st1 st2 : RunState),
      (∀ k f, Action.fetch k f ∉ l) → st1.fs = st2.fs →
      (runActions env date l st1).state.fs =
        (runActions env date l st2).state.fs ∧
      (runActions env date l st1).trace = (runActions env date l st2).trace ∧
      (runActions env date l st1).ok = (runActions env date l st2).ok ∧
      ∀ p, (runActions env date l st1).state.store p =
              (runActions env date l st2).state.store p ∨
           ((runActions env date l st1).state.store p = st1.store p ∧
            (runActions env date l st2).state.store p = st2.store p) := by
  intro l
  induction l with
  | nil =>
    intro st1 st2 _ hfs
    exact ⟨hfs, rfl, rfl, fun p => Or.inr ⟨rfl, rfl⟩⟩
  | cons a rest ih =>
    intro st1 st2 hno hfs
    have hnorest : ∀ k f, Action.fetch k f ∉ rest :=
      fun k f hm => hno k f (List.mem_cons_of_mem _ hm)
    cases a with
    | fetch kind file =>
      exact absurd (List.mem_cons_self _ _) (hno kind file)
    | runOp op outs =>
      by_cases hop : env.opOk op
      · simp only [runActions, hop, if_true]
        obtain ⟨ihfs, ihtr, ihok, ihst⟩ :=
          ih { st1 with fs := writeOutputs st1.fs env op outs }
            { st2 with fs := writeOutputs st2.fs env op outs }
            hnorest (congrArg (fun x => writeOutputs x env op outs) hfs)
        exact ⟨ihfs, by rw [ihtr], by rw [ihok], ihst⟩
      · refine ⟨?_, ?_, ?_, fun p => Or.inr ⟨?_, ?_⟩⟩ <;>
          simp [runActions, hop, hfs]
    | publish file kind =>
      have hfile : st2.fs file = st1.fs file := by rw [hfs]
      cases hsf : st1.fs file with
      | none =>
        have hsf2 : st2.fs file = none := by rw [hfile, hsf]
        refine ⟨?_, ?_, ?_, fun p => Or.inr ⟨?_, ?_⟩⟩ <;>
          simp [runActions, hsf, hsf2, hfs]
      | some v =>
        have hsf2 : st2.fs file = some v := by rw [hfile, hsf]
        simp only [runActions, hsf, hsf2]
        obtain ⟨ihfs, ihtr, ihok, ihst⟩ :=
          ih { st1 with store := update st1.store (export_path kind date ++ file) v }
            { st2 with store := update st2.store (export_path kind date ++ file) v }
            hnorest hfs
        refine ⟨ihfs, by rw [ihtr], by rw [ihok], fun p => ?_⟩
        rcases ihst p with h | ⟨h1, h2⟩
        · exact Or.inl h
        · simp only at h1 h2
          by_cases hp : p = export_path kind date ++ file
          · subst hp
            rw [update_self] at h1 h2
            exact Or.inl (h1.trans h2.symm)
          · rw [update_ne _ _ _ _ hp] at h1 h2
            exact Or.inr ⟨h1, h2⟩

theorem runStep_idempotent_no_fetch (env : Env) (date : Date)
    (store : String → Option String) (p : String) (cmd : List Action)
    (hno : ∀ k f, Action.fetch k f ∉ cmd) :
    (runStep cmd env date
      ((runStep cmd env date store).state.store)).state.store p =
      (runStep cmd env date store).state.store p := by
  simp only [runStep, releaseWorkspace]
  obtain ⟨-, -, -, hst⟩ := runActions_no_fetch_agree env date cmd
    ⟨fun _ => none,
      (runActions env date cmd ⟨fun _ => none, store⟩).state.store⟩
    ⟨fun _ => none, store⟩ hno rfl
  rcases hst p with h | ⟨h1, _⟩
  · exact h
  · exact h1

theorem runStep_idempotent_one_fetch (env : Env) (date : Date)
    (store : String → Option String) (p : String) (kind file : String)
    (rest : List Action)
    (hno : ∀ k f, Action.fetch k f ∉ rest)
    (hdisj : ∀ f2 k2, Action.publish f2 k2 ∈ rest →
      export_path kind date ++ file ≠ export_path k2 date ++ f2) :
    (runStep (Action.fetch kind file :: rest) env date
      ((runStep (Action.fetch kind file :: rest) env date
        store).state.store)).state.store p =
      (runStep (Action.fetch kind file :: rest) env date
        store).state.store p := by
  simp only [runStep, releaseWorkspace]
  cases hst : store (export_path kind date ++ file) with
  | none => simp [runActions, hst]
  | some v =>
    simp only [runActions, hst]
    have huntouched := runActions_store_untouched env date rest
      ⟨update (fun _ => none) file v, store⟩
      (export_path kind date ++ file) hdisj
    simp only at huntouched ⊢
    rw [huntouched, hst]
    obtain ⟨-, -, -, hagree⟩ := runActions_no_fetch_agree env date rest
      ⟨update (fun _ => none) file v,
        (runActions env date rest
          ⟨update (fun _ => none) file v, store⟩).state.store⟩
      ⟨update (fun _ => none) file v, store⟩ hno rfl
  -- hold
    rcases hagree p with h | ⟨h1, _⟩
    · exact h
    · exact h1

/-- C8: running any step command twice for the same date (with the
same unit-of-work outputs) leaves the object store pointwise identical
to running it once: every publish targets the path determined by the
kind, the date and the file basename, and overwrites. -/
theorem C8_idempotent_reruns :
    ∀ cmd ∈ allCommands, ∀ (env : Env) (date : Date)
      (store : String → Option String) (p : String),
      (runStep cmd env date
        ((runStep cmd env date store).state.store)).state.store p =
        (runStep cmd env date store).state.store p := by
  intro cmd hcmd env date store p
  simp only [allCommands, List.mem_cons, List.not_mem_nil, or_false] at hcmd
  rcases hcmd with rfl | rfl | rfl | rfl | rfl | rfl
  · exact runStep_idempotent_no_fetch env date store p _
      (by intro k f hm; simp [export_blocks_and_transactions_command] at hm)
  · simp only [export_receipts_and_logs_command]
    refine runStep_idempotent_one_fetch env date store p _ _ _
      (by intro k f hm; simp at hm) ?_
    intro f2 k2 hm
    simp at hm
    rcases hm with ⟨rfl, rfl⟩ | ⟨rfl, rfl⟩ <;>
      exact export_path_append_ne _ _ _ _ _ (by decide)
  · simp only [export_contracts_command]
    refine runStep_idempotent_one_fetch env date store p _ _ _
      (by intro k f hm; simp at hm) ?_
    intro f2 k2 hm
    simp at hm
    rcases hm with ⟨rfl, rfl⟩
    exact export_path_append_ne _ _ _ _ _ (by decide)
  · simp only [export_tokens_command]
    refine runStep_idempotent_one_fetch env date store p _ _ _
      (by intro k f hm; simp at hm) ?_
    intro f2 k2 hm
    simp at hm
    rcases hm with ⟨rfl, rfl⟩
    exact export_path_append_ne _ _ _ _ _ (by decide)
  · simp only [extract_token_transfers_command]
    refine runStep_idempotent_one_fetch env date store p _ _ _
      (by intro k f hm; simp at hm) ?_
    intro f2 k2 hm
    simp at hm
    rcases hm with ⟨rfl, rfl⟩
    exact export_path_append_ne _ _ _ _ _ (by decide)
  · exact runStep_idempotent_no_fetch env date store p _
      (by intro k f hm; simp [export_traces_command] at hm)

theorem C8_idempotent_reruns_witness :
    (runStep export_blocks_and_transactions_command okEnv sampleDate
      ((runStep export_blocks_and_transactions_command okEnv sampleDate
        (fun _ => none)).state.store)).state.store
      (export_path "blocks" sampleDate ++ "blocks.csv") =
    (runStep export_blocks_and_transactions_command okEnv sampleDate
      (fun _ => none)).state.store
      (export_path "blocks" sampleDate ++ "blocks.csv") :=
  C8_idempotent_reruns export_blocks_and_transactions_command (by decide)
    okEnv sampleDate (fun _ => none)
    (export_path "blocks" sampleDate ++ "blocks.csv")

/-- C9: a missing OUTPUT_BUCKET raises at configuration time, before
any graph is built; an environment supplying only OUTPUT_BUCKET loads
successfully with all documented defaults (endpoints, workers, batch
size, toggles, traces flags, empty notification list). -/
theorem C9_required_config_fail_fast :
    (∀ env : String → Option String, env "OUTPUT_BUCKET" = none →
      loadConfig env =
        Except.error "You must set OUTPUT_BUCKET environment variable" ∧
      buildDagFromEnv env =
        Except.error "You must set OUTPUT_BUCKET environment variable") ∧
    loadConfig minimalEnv = Except.ok
      ⟨[], "the-bucket", "https://mainnet.infura.io/",
        "https://mainnet.infura.io/", 5, 10, true, true,
        ⟨true, true, true, true, true, true⟩⟩ := by
  constructor
  · intro env h
    constructor
    · simp only [loadConfig, h]
      rfl
    · simp only [buildDagFromEnv, loadConfig, h]
      rfl
  · rfl

theorem C9_required_config_fail_fast_witness :
    loadConfig (fun _ => none) =
      Except.error "You must set OUTPUT_BUCKET environment variable" :=
  (C9_required_config_fail_fast.1 (fun _ => none) rfl).1

/-- C10: get_boolean_env_variable yields the default on an unset or
empty variable, and on a non-empty value yields true exactly when the
lowercased text is true or yes; values such as 1, enabled, or True
with a trailing blank disable the flag. -/
theorem C10_boolean_env_parsing :
    (∀ (env : String → Option String) (name : String) (dflt : Bool),
      env name = none → get_boolean_env_variable env name dflt = dflt) ∧
    (∀ (env : String → Option String) (name : String) (dflt : Bool),
      env name = some "" → get_boolean_env_variable env name dflt = dflt) ∧
    (∀ (env : String → Option String) (name : String) (dflt : Bool)
      (raw : String), env name = some raw → raw ≠ "" →
      (get_boolean_env_variable env name dflt = true ↔
        (pyLower raw = "true" ∨ pyLower raw = "yes"))) ∧
    get_boolean_env_variable (fun _ => some "1") "EXPORT_TRACES" true =
      false ∧
    get_boolean_env_variable (fun _ => some "enabled") "EXPORT_TRACES" true =
      false ∧
    get_boolean_env_variable (fun _ => some "True ") "EXPORT_TRACES" true =
      false ∧
    get_boolean_env_variable (fun _ => some "True") "EXPORT_TRACES" false =
      true ∧
    get_boolean_env_variable (fun _ => some "yes") "EXPORT_TRACES" false =
      true ∧
    (∀ (name : String) (dflt : Bool),
      get_boolean_env_variable (fun _ => none) name dflt = dflt) := by
  refine ⟨?_, ?_, ?_, by decide, by decide, by decide, by decide, by decide,
    fun name dflt => rfl⟩
  · intro env name dflt h
    simp [get_boolean_env_variable, h]
  · intro env name dflt h
    simp [get_boolean_env_variable, h]
  · intro env name dflt raw h hne
    simp only [get_boolean_env_variable, h]
    have hlen : ¬ raw.length = 0 :=
      fun h0 => hne (str_eq_of_data _ _ (List.length_eq_zero.mp h0))
    rw [if_neg hlen]
    simp [Bool.or_eq_true, beq_iff_eq]

theorem C10_boolean_env_parsing_witness :
    get_boolean_env_variable (fun _ => some "1") "EXPORT_CONTRACTS" true =
        true ↔
      (pyLower "1" = "true" ∨ pyLower "1" = "yes") :=
  C10_boolean_env_parsing.2.2.1 (fun _ => some "1") "EXPORT_CONTRACTS"
    true "1" rfl (by decide)

/-- C4 counterexample: with only the receipts step enabled and a stale
transactions artifact present in the store, the enabled consumer runs
to completion, fetching an artifact whose producer is not a node of
the TaskGraph, without its input requirement being omitted and without
any error. -/
theorem C4_dependency_integrity_cex :
    ("export_receipts_and_logs" ∈ (buildGraph onlyReceiptsToggles).1) ∧
    ("export_blocks_and_transactions" ∉ (buildGraph onlyReceiptsToggles).1) ∧
    (Action.fetch "transactions" "transactions.csv" ∈
      export_receipts_and_logs_command) ∧
    ((runStep export_receipts_and_logs_command okEnv sampleDate
      staleStore).ok = true) ∧
    (Event.fetched "transactions" "transactions.csv" ∈
      (runStep export_receipts_and_logs_command okEnv sampleDate
        staleStore).trace) ∧
    (Event.published "receipts" "receipts.csv" ∈
      (runStep export_receipts_and_logs_command okEnv sampleDate
        staleStore).trace) := by
  decide

/-- C4 amended: for every enabled consumer StepNode, graph construction
never omits the consumer or its input requirement when its producer is
disabled — each consumer command always contains its upstream fetch,
only the edge is elided; the protection is at run time only, and only
when the artifact is absent: then the consumer fails fast at fetch,
running no sub-operation, publishing nothing and leaving the store
untouched. -/
theorem C4_dependency_integrity_amended :
    ∀ (t : Toggles) (env : Env) (date : Date)
      (store : String → Option String),
      (Action.fetch "transactions" "transactions.csv" ∈
        export_receipts_and_logs_command) ∧
      (Action.fetch "receipts" "receipts.csv" ∈ export_contracts_command) ∧
      (Action.fetch "contracts" "contracts.json" ∈ export_tokens_command) ∧
      (Action.fetch "logs" "logs.json" ∈ extract_token_transfers_command) ∧
      (t.receiptsAndLogs = true → t.blocksAndTransactions = false →
        "export_receipts_and_logs" ∈ (buildGraph t).1 ∧
        "export_blocks_and_transactions" ∉ (buildGraph t).1 ∧
        ((buildGraph t).2.all
          (fun e => e.2 != "export_receipts_and_logs")) = true) ∧
      (t.contracts = true → t.receiptsAndLogs = false →
        "export_contracts" ∈ (buildGraph t).1 ∧
        "export_receipts_and_logs" ∉ (buildGraph t).1 ∧
        ((buildGraph t).2.all
          (fun e => e.2 != "export_contracts")) = true) ∧
      (t.tokens = true → t.contracts = false →
        "export_tokens" ∈ (buildGraph t).1 ∧
        "export_contracts" ∉ (buildGraph t).1 ∧
        ((buildGraph t).2.all (fun e => e.2 != "export_tokens")) = true) ∧
      (t.tokenTransfers = true → t.receiptsAndLogs = false →
        "extract_token_transfers" ∈ (buildGraph t).1 ∧
        "export_receipts_and_logs" ∉ (buildGraph t).1 ∧
        ((buildGraph t).2.all
          (fun e => e.2 != "extract_token_transfers")) = true) ∧
      (∀ spec ∈ consumerFetches,
        store (export_path spec.2.1 date ++ spec.2.2) = none →
        (runStep spec.1 env date store).ok = false ∧
        ((runStep spec.1 env date store).trace.any isPublishedEvent) =
          false ∧
        (∀ op, Event.ran op ∉ (runStep spec.1 env date store).trace) ∧
        (runStep spec.1 env date store).state.store = store) := by
  intro t env date store
  refine ⟨by decide, by decide, by decide, by decide, ?_, ?_, ?_, ?_, ?_⟩
  · intro hr hb
    obtain ⟨b, r, c, k, f, x⟩ := t
    simp only at hr hb
    subst hr
    subst hb
    cases c <;> cases k <;> cases f <;> cases x <;> decide
  · intro hc hr
    obtain ⟨b, r, c, k, f, x⟩ := t
    simp only at hc hr
    subst hc
    subst hr
    cases b <;> cases k <;> cases f <;> cases x <;> decide
  · intro hk hc
    obtain ⟨b, r, c, k, f, x⟩ := t
    simp only at hk hc
    subst hk
    subst hc
    cases b <;> cases r <;> cases f <;> cases x <;> decide
  · intro hf hr
    obtain ⟨b, r, c, k, f, x⟩ := t
    simp only at hf hr
    subst hf
    subst hr
    cases b <;> cases c <;> cases k <;> cases x <;> decide
  · intro spec hspec hmiss
    simp only [consumerFetches, List.mem_cons, List.not_mem_nil,
      or_false] at hspec
    rcases hspec with rfl | rfl | rfl | rfl <;>
      simp_all [runStep, runActions, releaseWorkspace,
        export_receipts_and_logs_command, export_contracts_command,
        export_tokens_command, extract_token_transfers_command,
        isPublishedEvent]

theorem C4_dependency_integrity_amended_witness :
    ("export_receipts_and_logs" ∈ (buildGraph onlyReceiptsToggles).1) ∧
    (runStep export_receipts_and_logs_command okEnv sampleDate
      (fun _ => none)).trace.any isPublishedEvent = false := by
  have h := C4_dependency_integrity_amended onlyReceiptsToggles okEnv
    sampleDate (fun _ => none)
  refine ⟨(h.2.2.2.2.1 rfl rfl).1, ?_⟩
  exact (h.2.2.2.2.2.2.2.2
    (export_receipts_and_logs_command, "transactions", "transactions.csv")
    (by decide) rfl).2.1

end EthereumEtl
